import Mathlib

/-!
# Verification of the nupic.cpp HTM core against its specification

This file embeds the data model and operations of the nupic.cpp
repository (SDR views, Dimensions, the Connections synapse/segment
graph store, and the Temporal Memory per-timestep protocol) as
executable Lean definitions and proves the specification's claims
about them.

The repository ships the headers `SdrTools.hpp` and
`TemporalMemory.hpp` and the test file `DimensionsTest.cpp`; the
corresponding implementation translation units (`SdrTools.cpp`,
`TemporalMemory.cpp`, `Connections.cpp/hpp`, `Dimensions.hpp`,
`Sdr.cpp/hpp`) are not part of the source tree, so those operations
are modelled from the specification document, as marked in the
individual doc comments.
-/

namespace NupicSpec

/-! ## Generic list helpers -/

/-- Product of a list of dimension sizes. -/
def listProd (l : List Nat) : Nat := l.foldl (· * ·) 1

/-- Clamp a rational permanence value into `[0, 1]`. -/
def clampQ (p : ℚ) : ℚ := min 1 (max 0 p)

/-- Fold `min` over a list, starting from `x`. -/
def foldMin {β : Type} [LinearOrder β] (x : β) (xs : List β) : β :=
  xs.foldl min x

/-- Remove the first element satisfying `p`; identity when none does. -/
def removeFirstWith {α : Type} (p : α → Bool) : List α → List α
  | [] => []
  | a :: as => if p a then as else a :: removeFirstWith p as

/-- Remove the first element on which `f` attains the minimum over the
whole list (the eviction rule: weakest permanence / least recently
used, ties broken by position, i.e. creation order). -/
def removeWeakestBy {α β : Type} [LinearOrder β] (f : α → β) :
    List α → List α
  | [] => []
  | a :: as =>
      let m := foldMin (f a) (as.map f)
      removeFirstWith (fun b => decide (f b = m)) (a :: as)

/-! ## The Connections synapse/segment graph store

Modelled from the spec: `Connections.hpp/cpp` is not under `src/`
(only its users, the `TemporalMemory.hpp` header, are), so the store
is modelled from spec §3 "Connections graph" and §4.2 "Connections":
synapses grouped into segments grouped per postsynaptic cell, a
configured maximum number of segments per cell (least-recently-used
segment evicted on overflow) and synapses per segment (weakest
permanence evicted on overflow), duplicate presynaptic cells on one
segment rejected, permanences clamped to `[0,1]` on every adjustment,
destroying a segment cascading to its synapses.  Permanence is
modelled as a rational number. -/

/-- A synapse: presynaptic cell reference and permanence value. -/
structure SynapseData where
  presyn : Nat
  permanence : ℚ
deriving Repr, DecidableEq

/-- A segment: its ordered synapse collection and the iteration it was
last part of an active-segment computation (drives LRU eviction). -/
structure SegmentData where
  synapses : List SynapseData
  lastUsed : Nat
deriving Repr, DecidableEq

/-- Modelled from the spec: the Connections store, as the list of
segment lists indexed by postsynaptic cell, plus the configured
capacity bounds. -/
structure Connections where
  cells : List (List SegmentData)
  maxSegmentsPerCell : Nat
  maxSynapsesPerSegment : Nat
deriving Repr, DecidableEq

/-- A fresh Connections store: `numCells` cells, no segments. -/
def Connections.init (numCells maxSeg maxSyn : Nat) : Connections :=
  ⟨List.replicate numCells [], maxSeg, maxSyn⟩

/-- The segments owned by `cell` (empty for an unknown cell). -/
def Connections.getSegs (c : Connections) (cell : Nat) : List SegmentData :=
  c.cells.getD cell []

/-- Replace the segment list of `cell`; a no-op for an unknown cell
(an invalid-handle failure leaves state as if not attempted, §7). -/
def Connections.setSegs (c : Connections) (cell : Nat)
    (segs : List SegmentData) : Connections :=
  { c with cells := c.cells.set cell segs }

/-- Modelled from the spec: `createSegment(cell)`.  If the owning cell
already has the maximum number of segments, the least-recently-used
segment on that cell is destroyed first (ties broken by creation
order).  The new segment is stamped with the current iteration. -/
def Connections.createSegment (c : Connections) (cell iter : Nat) :
    Connections :=
  let segs := c.getSegs cell
  let segs2 :=
    if c.maxSegmentsPerCell ≤ segs.length then
      removeWeakestBy (fun s => s.lastUsed) segs
    else segs
  c.setSegs cell (segs2 ++ [⟨[], iter⟩])

/-- Grow one synapse on a segment: duplicate presynaptic cells are
disallowed (the growth is rejected); at synapse capacity the synapse
with the lowest permanence is destroyed first. -/
def createSynapseOnSeg (seg : SegmentData) (presyn : Nat) (perm : ℚ)
    (maxSyn : Nat) : SegmentData :=
  if seg.synapses.any (fun sy => sy.presyn = presyn) then seg
  else
    let syns :=
      if maxSyn ≤ seg.synapses.length then
        removeWeakestBy (fun sy => sy.permanence) seg.synapses
      else seg.synapses
    { seg with synapses := syns ++ [⟨presyn, perm⟩] }

/-- Modelled from the spec: `createSynapse(segment, presynapticCell,
initialPermanence)`, with the segment addressed by owning cell and
position. -/
def Connections.createSynapse (c : Connections)
    (cell segIdx presyn : Nat) (perm : ℚ) : Connections :=
  let segs := c.getSegs cell
  match segs.get? segIdx with
  | none => c
  | some seg =>
      c.setSegs cell
        (segs.set segIdx (createSynapseOnSeg seg presyn perm
          c.maxSynapsesPerSegment))

/-- Modelled from the spec: `destroySegment` — removing a segment
cascades to all its synapses. -/
def Connections.destroySegment (c : Connections) (cell segIdx : Nat) :
    Connections :=
  c.setSegs cell ((c.getSegs cell).eraseIdx segIdx)

/-- Modelled from the spec: `destroySynapse`. -/
def Connections.destroySynapse (c : Connections)
    (cell segIdx synIdx : Nat) : Connections :=
  let segs := c.getSegs cell
  match segs.get? segIdx with
  | none => c
  | some seg =>
      c.setSegs cell
        (segs.set segIdx { seg with synapses := seg.synapses.eraseIdx synIdx })

/-- Modelled from the spec: `updateSynapsePermanence(synapse, delta)`
adds `delta` and clamps to `[0,1]`. -/
def Connections.updateSynapsePermanence (c : Connections)
    (cell segIdx synIdx : Nat) (delta : ℚ) : Connections :=
  let segs := c.getSegs cell
  match segs.get? segIdx with
  | none => c
  | some seg =>
      match seg.synapses.get? synIdx with
      | none => c
      | some sy =>
          let sy2 : SynapseData :=
            { sy with permanence := clampQ (sy.permanence + delta) }
          let seg2 : SegmentData :=
            { seg with synapses := seg.synapses.set synIdx sy2 }
          c.setSegs cell (segs.set segIdx seg2)

/-- Look up a synapse by cell, segment position and synapse position. -/
def Connections.getSynapse (c : Connections)
    (cell segIdx synIdx : Nat) : Option SynapseData :=
  match (c.getSegs cell).get? segIdx with
  | none => none
  | some seg => seg.synapses.get? synIdx

/-- A segment respects its synapse capacity and all its permanences
lie in `[0,1]`. -/
def SegOk (maxSyn : Nat) (seg : SegmentData) : Prop :=
  seg.synapses.length ≤ maxSyn ∧
    ∀ sy ∈ seg.synapses, 0 ≤ sy.permanence ∧ sy.permanence ≤ 1

/-- A cell's segment list respects the segment capacity, and each of
its segments is well formed. -/
def SegsOk (maxSeg maxSyn : Nat) (segs : List SegmentData) : Prop :=
  segs.length ≤ maxSeg ∧ ∀ seg ∈ segs, SegOk maxSyn seg

/-- The capacity and permanence invariant of the Connections store:
every cell owns at most `maxSegmentsPerCell` segments, every segment
owns at most `maxSynapsesPerSegment` synapses, every permanence lies
in `[0,1]`. -/
def Connections.Invariant (c : Connections) : Prop :=
  ∀ segs ∈ c.cells, SegsOk c.maxSegmentsPerCell c.maxSynapsesPerSegment segs

instance (maxSyn : Nat) (seg : SegmentData) : Decidable (SegOk maxSyn seg) := by
  unfold SegOk; infer_instance

instance (maxSeg maxSyn : Nat) (segs : List SegmentData) :
    Decidable (SegsOk maxSeg maxSyn segs) := by
  unfold SegsOk; infer_instance

instance (c : Connections) : Decidable c.Invariant := by
  unfold Connections.Invariant
  infer_instance

/-- The mutating operations Temporal Memory issues against the store. -/
inductive ConnOp where
  | createSegment (cell iter : Nat)
  | createSynapse (cell segIdx presyn : Nat) (perm : ℚ)
  | destroySegment (cell segIdx : Nat)
  | destroySynapse (cell segIdx synIdx : Nat)
  | updatePermanence (cell segIdx synIdx : Nat) (delta : ℚ)
deriving Repr, DecidableEq

/-- Apply one operation to the store. -/
def applyConnOp (c : Connections) : ConnOp → Connections
  | .createSegment cell iter => c.createSegment cell iter
  | .createSynapse cell segIdx presyn perm =>
      c.createSynapse cell segIdx presyn perm
  | .destroySegment cell segIdx => c.destroySegment cell segIdx
  | .destroySynapse cell segIdx synIdx =>
      c.destroySynapse cell segIdx synIdx
  | .updatePermanence cell segIdx synIdx delta =>
      c.updateSynapsePermanence cell segIdx synIdx delta

/-- An operation supplies a well-formed initial permanence: synapses
are created with a permanence already in `[0,1]` (Temporal Memory
always passes its configured `initialPermanence`). -/
def ConnOp.permOk : ConnOp → Prop
  | .createSynapse _ _ _ perm => 0 ≤ perm ∧ perm ≤ 1
  | _ => True

instance (op : ConnOp) : Decidable op.permOk := by
  cases op <;> simp [ConnOp.permOk] <;> infer_instance

/-! ## SDR values and read-only views -/

/-- Modelled from the spec: an SDR value (`Sdr.hpp/cpp` is not under
`src/`) — its declared dimensions plus its dense bit array.  The
sparse and coordinate forms are derived from the dense form. -/
structure SDRData where
  dimensions : List Nat
  dense : List Bool
deriving Repr, DecidableEq

/-- The sorted list of set-bit flat indices of a dense bit array. -/
def denseToSparse (d : List Bool) : List Nat :=
  (List.range d.length).filter (fun i => d.getD i false)

/-- `getSparse`: current value as sorted flat indices. -/
def SDRData.getSparse (s : SDRData) : List Nat := denseToSparse s.dense

/-- `getSum`: number of active bits. -/
def SDRData.getSum (s : SDRData) : Nat := s.getSparse.length

/-- Dense bit array of length `n` with exactly the given indices set. -/
def setBits (n : Nat) (idxs : List Nat) : List Bool :=
  (List.range n).map (fun i => idxs.contains i)

/-- Modelled from the spec: `setSparse` full-value assignment. -/
def SDRData.setSparse (s : SDRData) (idxs : List Nat) : SDRData :=
  { s with dense := setBits (listProd s.dimensions) idxs }

/-- Modelled from the spec: `setDense` full-value assignment. -/
def SDRData.setDense (s : SDRData) (d : List Bool) : SDRData :=
  { s with dense := d }

/-- Modelled from the spec: `zero()` clears all bits. -/
def SDRData.zero (s : SDRData) : SDRData := s.setSparse []

/-- Row-major flat index of one multi-dimensional coordinate point. -/
def coordsToFlat (dims coord : List Nat) : Nat :=
  (List.zip dims coord).foldl (fun acc p => acc * p.1 + p.2) 0

/-- Row-major coordinate digits of a flat index, innermost dimension
first (dimension list already reversed). -/
def flatToCoordsRev : List Nat → Nat → List Nat
  | [], _ => []
  | d :: ds, f => (f % d) :: flatToCoordsRev ds (f / d)

/-- Multi-dimensional coordinate point of a flat index (row-major). -/
def flatToCoords (dims : List Nat) (f : Nat) : List Nat :=
  (flatToCoordsRev dims.reverse f).reverse

/-- Per-dimension coordinate lists of a set of flat indices (the SDR
coordinate representation: one index list per dimension). -/
def coordinatesOf (dims : List Nat) (sparse : List Nat) : List (List Nat) :=
  (List.range dims.length).map
    (fun j => sparse.map (fun f => (flatToCoords dims f).getD j 0))

/-- `getCoordinates`: current value as per-dimension coordinate
lists. -/
def SDRData.getCoordinates (s : SDRData) : List (List Nat) :=
  coordinatesOf s.dimensions s.getSparse

/-- The coordinate points (one list per active bit) described by
per-dimension coordinate lists. -/
def coordPoints (coords : List (List Nat)) : List (List Nat) :=
  (List.range (coords.headD []).length).map
    (fun i => coords.map (fun cl => cl.getD i 0))

/-- Modelled from the spec: `setCoordinates` full-value assignment from
per-dimension coordinate lists. -/
def SDRData.setCoordinates (s : SDRData) (coords : List (List Nat)) :
    SDRData :=
  s.setSparse ((coordPoints coords).map (coordsToFlat s.dimensions))

/-- The error message thrown by every mutating entry point of
`ReadOnly_` (SdrTools.hpp, lines 42–55). -/
def readOnlyErrorMessage : String := "This SDR is read only."

/-- A read-only SDR view state: the current (materialized) value. -/
structure ReadOnlySDR where
  value : SDRData
deriving Repr, DecidableEq

/-- `ReadOnly_::setDenseInplace` — throws unconditionally
(SdrTools.hpp line 45). -/
def ReadOnlySDR.setDenseInplace (v : ReadOnlySDR) :
    Except String ReadOnlySDR := .error readOnlyErrorMessage

/-- `ReadOnly_::setSparseInplace` — throws unconditionally
(SdrTools.hpp line 47). -/
def ReadOnlySDR.setSparseInplace (v : ReadOnlySDR) :
    Except String ReadOnlySDR := .error readOnlyErrorMessage

/-- `ReadOnly_::setCoordinatesInplace` — throws unconditionally
(SdrTools.hpp line 49). -/
def ReadOnlySDR.setCoordinatesInplace (v : ReadOnlySDR) :
    Except String ReadOnlySDR := .error readOnlyErrorMessage

/-- `ReadOnly_::setSDR` — throws unconditionally (SdrTools.hpp
line 51). -/
def ReadOnlySDR.setSDR (v : ReadOnlySDR) (other : SDRData) :
    Except String ReadOnlySDR := .error readOnlyErrorMessage

/-- `ReadOnly_::load` — throws unconditionally (SdrTools.hpp
line 53), so load on a view never silently produces an empty
object. -/
def ReadOnlySDR.load (v : ReadOnlySDR) (stream : List Nat) :
    Except String ReadOnlySDR := .error readOnlyErrorMessage

/-- Modelled from the spec: the value of a `Reshape` view — the source
SDR's current bit pattern under the view's own declared dimensions
(`SdrTools.cpp` is not under `src/`; the Reshape class documentation
is SdrTools.hpp lines 58–84). -/
def Reshape.value (dims : List Nat) (source : SDRData) : SDRData :=
  ⟨dims, source.dense⟩

/-- Canonical serialized form of an SDR value: dimensions then the
sparse index list (spec §6). -/
def serializeSDR (s : SDRData) : List Nat :=
  s.dimensions.length :: s.dimensions ++ s.getSum :: s.getSparse

/-- Modelled from the spec: `Reshape::save` — supported; serializes
the view's current materialized value. -/
def Reshape.save (dims : List Nat) (source : SDRData) :
    Except String (List Nat) :=
  .ok (serializeSDR (Reshape.value dims source))

/-- `Reshape` inherits `ReadOnly_::load` (SdrTools.hpp): load on a
view fails unconditionally. -/
def Reshape.load (stream : List Nat) : Except String ReadOnlySDR :=
  .error readOnlyErrorMessage

/-- Modelled from the spec: `Intersection::getDense` — the bitwise AND
of all source SDRs' dense forms (SdrTools.hpp lines 187–239;
`SdrTools.cpp` is not under `src/`). -/
def Intersection.getDense (inputs : List SDRData) : List Bool :=
  match inputs with
  | [] => []
  | x :: rest =>
      rest.foldl (fun acc s => List.zipWith and acc s.dense) x.dense

/-- Sparse value of an `Intersection` view. -/
def Intersection.getSparse (inputs : List SDRData) : List Nat :=
  denseToSparse (Intersection.getDense inputs)

/-- Active-bit count of an `Intersection` view (`getSum`;
`getSparsity` is this count over the element count). -/
def Intersection.getSum (inputs : List SDRData) : Nat :=
  (Intersection.getSparse inputs).length

/-! ## Dimensions -/

/-- Modelled from the spec: the `Dimensions` type (`Dimensions.hpp` is
not under `src/`; its unit tests `DimensionsTest.cpp` are).  A value
is an ordered list of dimension sizes; the empty list denotes an
unspecified shape and `[0]` denotes a don't-care shape. -/
abbrev Dimensions := List Nat

/-- `Dimensions::isUnspecified`: the empty dimension list. -/
def Dimensions.isUnspecified (d : Dimensions) : Bool := d.isEmpty

/-- `Dimensions::isDontcare`: exactly the list `[0]`. -/
def Dimensions.isDontcare (d : Dimensions) : Bool := decide (d = [0])

/-- `Dimensions::isSpecified`: nonempty with all sizes positive. -/
def Dimensions.isSpecified (d : Dimensions) : Bool :=
  !d.isEmpty && d.all (fun x => decide (0 < x))

/-- `Dimensions::isInvalid`: neither specified nor don't-care. -/
def Dimensions.isInvalid (d : Dimensions) : Bool :=
  !Dimensions.isSpecified d && !Dimensions.isDontcare d

/-- `Dimensions::getCount`: total element count; 0 unless the shape is
fully specified. -/
def Dimensions.getCount (d : Dimensions) : Nat :=
  if Dimensions.isSpecified d then listProd d else 0

/-- Modelled from the spec: streaming a Dimensions value out with
`operator<<` (DimensionsTest `Overloads` exercises the round trip),
as a length-prefixed token stream. -/
def Dimensions.save (d : Dimensions) : List Nat := d.length :: d

/-- Modelled from the spec: reading a Dimensions value back with
`operator>>`, returning the value and the remaining stream. -/
def Dimensions.loadStream (stream : List Nat) : Dimensions × List Nat :=
  match stream with
  | [] => ([], [])
  | n :: rest => (rest.take n, rest.drop n)

/-! ## Temporal Memory

`TemporalMemory.cpp` is not under `src/` (only the header
`TemporalMemory.hpp` is), so the per-timestep protocol is modelled
from spec §4.3 over the header's declared state fields
(TemporalMemory.hpp lines 483–514). -/

/-- The constructor parameters of `TemporalMemory`
(TemporalMemory.hpp lines 143–158). -/
structure TMParams where
  columnDimensions : List Nat
  cellsPerColumn : Nat
  activationThreshold : Nat
  initialPermanence : ℚ
  connectedPermanence : ℚ
  minThreshold : Nat
  maxNewSynapseCount : Nat
  permanenceIncrement : ℚ
  permanenceDecrement : ℚ
  predictedSegmentDecrement : ℚ
  seed : Nat
  maxSegmentsPerCell : Nat
  maxSynapsesPerSegment : Nat
  checkInputs : Bool
  extra : Nat
deriving Repr, DecidableEq

/-- Modelled from the spec: the per-instance deterministic
pseudo-random generator `rng_` (`Random.hpp` is not under `src/`);
a linear congruential generator seeded from the constructor seed.
All non-deterministic choices are funneled through it (spec §5). -/
structure TMRandom where
  state : Nat
deriving Repr, DecidableEq

/-- Seed the generator. -/
def TMRandom.init (seed : Nat) : TMRandom := ⟨seed⟩

/-- Advance the generator one step. -/
def TMRandom.next (r : TMRandom) : Nat × TMRandom :=
  let s := (r.state * 1103515245 + 12345) % 2147483648
  (s, ⟨s⟩)

/-- A pseudo-random number below `n` (0 when `n = 0`). -/
def TMRandom.natBelow (r : TMRandom) (n : Nat) : Nat × TMRandom :=
  let (v, r2) := r.next
  (if n = 0 then 0 else v % n, r2)

/-- Sample up to `n` elements from `pool` without replacement,
deterministically from the generator state. -/
def sampleList : TMRandom → Nat → List Nat → List Nat × TMRandom
  | r, 0, _ => ([], r)
  | r, _ + 1, [] => ([], r)
  | r, n + 1, p :: ps =>
      let pool := p :: ps
      let (k, r1) := r.natBelow pool.length
      let x := pool.getD k 0
      let (rest, r2) := sampleList r1 n (pool.eraseIdx k)
      (x :: rest, r2)

/-- The Temporal Memory state: the header's fields
(TemporalMemory.hpp lines 483–514), with the constructor parameters
grouped in `prm`. -/
structure TMState where
  prm : TMParams
  activeCells : List Nat
  winnerCells : List Nat
  segmentsValid : Bool
  activeSegments : List (Nat × Nat)
  matchingSegments : List (Nat × Nat)
  numActiveConnectedSynapsesForSegment : List ((Nat × Nat) × Nat)
  numActivePotentialSynapsesForSegment : List ((Nat × Nat) × Nat)
  iteration : Nat
  rng : TMRandom
  connections : Connections
deriving Repr, DecidableEq

/-- `numberOfColumns()`. -/
def TMState.numberOfColumns (s : TMState) : Nat :=
  listProd s.prm.columnDimensions

/-- `numberOfCells()`. -/
def TMState.numberOfCells (s : TMState) : Nat :=
  s.numberOfColumns * s.prm.cellsPerColumn

/-- `initialize` / the parameterized constructor: fresh working sets,
generator seeded from the seed parameter, an empty Connections store
sized to the cell count with the configured capacity bounds. -/
def TMState.init (p : TMParams) : TMState :=
  { prm := p
    activeCells := []
    winnerCells := []
    segmentsValid := false
    activeSegments := []
    matchingSegments := []
    numActiveConnectedSynapsesForSegment := []
    numActivePotentialSynapsesForSegment := []
    iteration := 0
    rng := TMRandom.init p.seed
    connections := Connections.init
      (listProd p.columnDimensions * p.cellsPerColumn)
      p.maxSegmentsPerCell p.maxSynapsesPerSegment }

/-- `cellsForColumn`. -/
def TMState.cellsForColumn (s : TMState) (col : Nat) : List Nat :=
  (List.range s.prm.cellsPerColumn).map
    (fun i => col * s.prm.cellsPerColumn + i)

/-- The segment addressed by a (cell, position) reference. -/
def Connections.getSegAt (c : Connections) (ref : Nat × Nat) :
    SegmentData :=
  (c.getSegs ref.1).getD ref.2 ⟨[], 0⟩

/-- Replace the segment at a (cell, position) reference. -/
def Connections.setSegAt (c : Connections) (ref : Nat × Nat)
    (seg : SegmentData) : Connections :=
  c.setSegs ref.1 ((c.getSegs ref.1).set ref.2 seg)

/-- All (cell, position) segment references in the store. -/
def Connections.segRefs (c : Connections) : List (Nat × Nat) :=
  (List.range c.cells.length).flatMap
    (fun cell =>
      (List.range (c.getSegs cell).length).map (fun i => (cell, i)))

/-- Modelled from the spec: `Connections::computeActivity` counts for
one segment — active connected synapses (permanence ≥ the connected
threshold) and active potential synapses. -/
def countActiveSyns (active : List Nat) (connected : ℚ)
    (seg : SegmentData) : Nat × Nat :=
  seg.synapses.foldl
    (fun acc sy =>
      if active.contains sy.presyn then
        ((if connected ≤ sy.permanence then acc.1 + 1 else acc.1),
          acc.2 + 1)
      else acc)
    (0, 0)

/-- Stamp segments with the iteration they were last active
(learning-mode bookkeeping of `activateDendrites`, backing
`lastUsedIterationForSegment_`). -/
def stampSegments (c : Connections) (refs : List (Nat × Nat))
    (iter : Nat) : Connections :=
  refs.foldl
    (fun acc ref =>
      acc.setSegAt ref { acc.getSegAt ref with lastUsed := iter })
    c

/-- Modelled from the spec (§4.3 phase 1; TemporalMemory.hpp lines
219–244): `activateDendrites(learn, extraActive, extraWinners)`.
While the stored segment activity is still valid the call returns
immediately; otherwise the external inputs are appended to the
previous active/winner cells (offset by the internal cell count),
every segment is classified as active (connected count ≥
`activationThreshold`) or matching (potential count ≥ `minThreshold`),
the per-segment counts are stored, the iteration counter advances,
and with learning enabled active segments are stamped as last used
this iteration. -/
def TMState.activateDendrites (s : TMState) (learn : Bool)
    (extraActive extraWinners : List Nat) : TMState :=
  if s.segmentsValid then s
  else
    let n := s.numberOfCells
    let active := s.activeCells ++ extraActive.map (fun e => e + n)
    let winners := s.winnerCells ++ extraWinners.map (fun e => e + n)
    let refs := s.connections.segRefs
    let counts := refs.map
      (fun ref =>
        (ref, countActiveSyns active s.prm.connectedPermanence
          (s.connections.getSegAt ref)))
    let activeSegs :=
      (counts.filter
        (fun rc => decide (s.prm.activationThreshold ≤ rc.2.1))).map
        (fun rc => rc.1)
    let matchingSegs :=
      (counts.filter
        (fun rc => decide (s.prm.minThreshold ≤ rc.2.2))).map
        (fun rc => rc.1)
    let iter2 := s.iteration + 1
    let conns2 :=
      if learn then stampSegments s.connections activeSegs iter2
      else s.connections
    { s with
      activeCells := active
      winnerCells := winners
      segmentsValid := true
      activeSegments := activeSegs
      matchingSegments := matchingSegs
      numActiveConnectedSynapsesForSegment :=
        counts.map (fun rc => (rc.1, rc.2.1))
      numActivePotentialSynapsesForSegment :=
        counts.map (fun rc => (rc.1, rc.2.2))
      iteration := iter2
      connections := conns2 }

/-- Stored per-segment count lookup. -/
def lookupCount (l : List ((Nat × Nat) × Nat)) (ref : Nat × Nat) :
    Nat :=
  match l.find? (fun x => decide (x.1 = ref)) with
  | none => 0
  | some x => x.2

/-- Reinforce a segment: synapses from previously active cells are
incremented, the rest decremented, every result clamped to `[0,1]`. -/
def adaptSegment (c : Connections) (ref : Nat × Nat)
    (prevActive : List Nat) (inc decr : ℚ) : Connections :=
  let seg := c.getSegAt ref
  let syns := seg.synapses.map
    (fun sy =>
      if prevActive.contains sy.presyn then
        { sy with permanence := clampQ (sy.permanence + inc) }
      else
        { sy with permanence := clampQ (sy.permanence - decr) })
  c.setSegAt ref { seg with synapses := syns }

/-- Punish a matching segment of a column that did not become active:
synapses toward previously active cells lose the predicted-segment
decrement. -/
def punishSegment (c : Connections) (ref : Nat × Nat)
    (prevActive : List Nat) (psd : ℚ) : Connections :=
  let seg := c.getSegAt ref
  let syns := seg.synapses.map
    (fun sy =>
      if prevActive.contains sy.presyn then
        { sy with permanence := clampQ (sy.permanence - psd) }
      else sy)
  c.setSegAt ref { seg with synapses := syns }

/-- Grow up to `nDesired` new synapses on `ref` toward a random subset
of the previous winner cells not already presynaptic to it. -/
def growSynapses (c : Connections) (r : TMRandom) (ref : Nat × Nat)
    (prevWinners : List Nat) (nDesired : Nat) (initPerm : ℚ) :
    Connections × TMRandom :=
  let seg := c.getSegAt ref
  let existing := seg.synapses.map (fun sy => sy.presyn)
  let candidates := prevWinners.filter (fun w => !existing.contains w)
  let (chosen, r2) := sampleList r nDesired candidates
  (chosen.foldl
    (fun acc w => acc.createSynapse ref.1 ref.2 w initPerm) c, r2)

/-- Best matching segment of a column: most active potential synapses,
ties broken by lowest cell index, then by creation order. -/
def bestMatchingSegment (matching : List (Nat × Nat))
    (pot : List ((Nat × Nat) × Nat)) : Option (Nat × Nat) :=
  match matching with
  | [] => none
  | m :: ms =>
      some (ms.foldl
        (fun best cand =>
          let pb := lookupCount pot best
          let pc := lookupCount pot cand
          if pc > pb ∨ (pc = pb ∧ cand.1 < best.1) then cand else best)
        m)

/-- Winner cell of a bursting column without matching segments: a cell
with the fewest segments, ties broken through the random generator
(§4.3; design-note tie-break). -/
def leastUsedCell (c : Connections) (r : TMRandom)
    (colCells : List Nat) : Nat × TMRandom :=
  match colCells with
  | [] => (0, r)
  | c0 :: rest =>
      let m := foldMin (c.getSegs c0).length
        (rest.map (fun cell => (c.getSegs cell).length))
      let tied := (c0 :: rest).filter
        (fun cell => decide ((c.getSegs cell).length = m))
      let (k, r2) := r.natBelow tied.length
      (tied.getD k c0, r2)

/-- Modelled from the spec (§4.3 phase 2; TemporalMemory.hpp lines
202–217): `activateCells(activeColumns, learn)`.  Each active column
with predicted cells activates exactly those cells as active and
winner cells; otherwise it bursts: every cell becomes active and one
winner is chosen (cell of the best matching segment, else a
least-used cell that grows a new segment).  With learning enabled the
chosen segments are reinforced against the previous active cells and
grow synapses toward previous winner cells; matching segments of
columns that did not become active are punished when the
predicted-segment decrement is nonzero.  Finally the stored segment
activity is invalidated for the next timestep. -/
def TMState.activateCells (s : TMState) (activeColumns : List Nat)
    (learn : Bool) : TMState :=
  let cpc := s.prm.cellsPerColumn
  let prevActive := s.activeCells
  let prevWinners := s.winnerCells
  let pot := s.numActivePotentialSynapsesForSegment
  let step := fun (acc : List Nat × List Nat × Connections × TMRandom)
      (col : Nat) =>
    let actAcc := acc.1
    let winAcc := acc.2.1
    let conns := acc.2.2.1
    let rng := acc.2.2.2
    let colCells := (List.range cpc).map (fun i => col * cpc + i)
    let predicted := colCells.filter
      (fun cell => s.activeSegments.any (fun ref => decide (ref.1 = cell)))
    if predicted ≠ [] then
      let segsHere := s.activeSegments.filter
        (fun ref => colCells.contains ref.1)
      let res2 :=
        if learn then
          segsHere.foldl
            (fun (p : Connections × TMRandom) ref =>
              let c1 := adaptSegment p.1 ref prevActive
                s.prm.permanenceIncrement s.prm.permanenceDecrement
              growSynapses c1 p.2 ref prevWinners
                (s.prm.maxNewSynapseCount - lookupCount pot ref)
                s.prm.initialPermanence)
            (conns, rng)
        else (conns, rng)
      (actAcc ++ predicted, winAcc ++ predicted, res2.1, res2.2)
    else
      let matchingHere := s.matchingSegments.filter
        (fun ref => colCells.contains ref.1)
      match bestMatchingSegment matchingHere pot with
      | some best =>
          let res2 :=
            if learn then
              let c1 := adaptSegment conns best prevActive
                s.prm.permanenceIncrement s.prm.permanenceDecrement
              growSynapses c1 rng best prevWinners
                (s.prm.maxNewSynapseCount - lookupCount pot best)
                s.prm.initialPermanence
            else (conns, rng)
          (actAcc ++ colCells, winAcc ++ [best.1], res2.1, res2.2)
      | none =>
          let wr := leastUsedCell conns rng colCells
          let winner := wr.1
          let res2 :=
            if learn then
              if prevWinners.isEmpty then (conns, wr.2)
              else
                let c1 := conns.createSegment winner s.iteration
                let newRef := (winner, (c1.getSegs winner).length - 1)
                growSynapses c1 wr.2 newRef prevWinners
                  s.prm.maxNewSynapseCount s.prm.initialPermanence
            else (conns, wr.2)
          (actAcc ++ colCells, winAcc ++ [winner], res2.1, res2.2)
  let res := activeColumns.foldl step ([], [], s.connections, s.rng)
  let conns5 :=
    if learn = true ∧ s.prm.predictedSegmentDecrement ≠ 0 then
      (s.matchingSegments.filter
        (fun ref => !activeColumns.contains (ref.1 / cpc))).foldl
        (fun acc ref =>
          punishSegment acc ref prevActive
            s.prm.predictedSegmentDecrement)
        res.2.2.1
    else res.2.2.1
  { s with
    activeCells := res.1
    winnerCells := res.2.1
    segmentsValid := false
    connections := conns5
    rng := res.2.2.2 }

/-- `reset()` (TemporalMemory.hpp lines 196–200, spec §4.3): clears
the per-timestep working sets — a sequence boundary — touching
neither the learned Connections graph nor the random generator. -/
def TMState.reset (s : TMState) : TMState :=
  { s with
    activeCells := []
    winnerCells := []
    segmentsValid := false
    activeSegments := []
    matchingSegments := []
    numActiveConnectedSynapsesForSegment := []
    numActivePotentialSynapsesForSegment := [] }

/-- `compute` (TemporalMemory.hpp lines 246–277):
`activateDendrites` followed by `activateCells`. -/
def TMState.compute (s : TMState) (activeColumns : List Nat)
    (learn : Bool) (extraActive extraWinners : List Nat) : TMState :=
  (s.activateDendrites learn extraActive extraWinners).activateCells
    activeColumns learn

/-- `getActiveCells`. -/
def TMState.getActiveCells (s : TMState) : List Nat := s.activeCells

/-- `getWinnerCells`. -/
def TMState.getWinnerCells (s : TMState) : List Nat := s.winnerCells

/-- `getPredictiveCells`: cells owning at least one active segment. -/
def TMState.getPredictiveCells (s : TMState) : List Nat :=
  (s.activeSegments.map (fun ref => ref.1)).dedup

/-- `getActiveSegments`. -/
def TMState.getActiveSegments (s : TMState) : List (Nat × Nat) :=
  s.activeSegments

/-- `getMatchingSegments`. -/
def TMState.getMatchingSegments (s : TMState) : List (Nat × Nat) :=
  s.matchingSegments

/-- `operator==` (spec §4.3): compares all configuration parameters
and the full learned Connections graph, not transient per-timestep
state. -/
def TMState.tmEquals (a b : TMState) : Bool :=
  decide (a.prm = b.prm ∧ a.connections = b.connections)

/-- One compute call's inputs. -/
structure TMInput where
  activeColumns : List Nat
  learn : Bool
  extraActive : List Nat
  extraWinners : List Nat
deriving Repr, DecidableEq

/-- Run a sequence of compute calls. -/
def runTM (s : TMState) (inputs : List TMInput) : TMState :=
  inputs.foldl
    (fun t i => t.compute i.activeColumns i.learn i.extraActive
      i.extraWinners)
    s

/-! ## Concrete example values used by the witnesses -/

/-- A 4×4 SDR source, initially empty. -/
def sdrSourceEx : SDRData := ⟨[4, 4], setBits 16 []⟩

/-- A 10-bit SDR holding the sparse set {2,3,4,5}. -/
def sdrAEx : SDRData := ⟨[10], setBits 10 [2, 3, 4, 5]⟩

/-- A 10-bit SDR holding the sparse set {0,1,2,3}. -/
def sdrBEx : SDRData := ⟨[10], setBits 10 [0, 1, 2, 3]⟩

/-- A one-cell store (capacities 1/1) holding one segment with one
synapse of permanence 1/2. -/
def connEx : Connections := ⟨[[⟨[⟨1, 1/2⟩], 0⟩]], 1, 1⟩

/-- An operation sequence exercising every store operation, including
capacity-overflow eviction and out-of-range clamping. -/
def connOpsEx : List ConnOp :=
  [.createSegment 0 1, .createSynapse 0 0 1 1, .createSegment 0 2,
   .createSynapse 0 0 2 0, .updatePermanence 0 0 0 (1/2),
   .createSegment 1 3, .destroySynapse 0 0 0, .destroySegment 1 0,
   .updatePermanence 0 0 0 (-2)]

/-- Small Temporal Memory parameters: 4 columns of 2 cells. -/
def tmParamsEx : TMParams :=
  { columnDimensions := [4]
    cellsPerColumn := 2
    activationThreshold := 1
    initialPermanence := 21/100
    connectedPermanence := 1/2
    minThreshold := 1
    maxNewSynapseCount := 3
    permanenceIncrement := 1/10
    permanenceDecrement := 1/10
    predictedSegmentDecrement := 1/100
    seed := 42
    maxSegmentsPerCell := 2
    maxSynapsesPerSegment := 2
    checkInputs := true
    extra := 0 }

/-- One compute input. -/
def tmInputEx : TMInput := ⟨[0, 2], true, [], []⟩

/-- A Temporal Memory state whose cached segment activity is marked
valid. -/
def tmStateValidEx : TMState :=
  { TMState.init tmParamsEx with segmentsValid := true }

/-! ### Helper lemmas -/

theorem foldMin_eq_or_mem {β : Type} [LinearOrder β] (x : β)
    (xs : List β) : foldMin x xs = x ∨ foldMin x xs ∈ xs := by
  induction xs generalizing x with
  | nil => left; rfl
  | cons y ys ih =>
      rcases ih (min x y) with h | h
      · rcases le_total x y with hxy | hxy
        · left
          show foldMin (min x y) ys = x
          rw [h]; exact min_eq_left hxy
        · right
          show foldMin (min x y) ys ∈ y :: ys
          rw [h, min_eq_right hxy]
          exact List.mem_cons_self y ys
      · right
        exact List.mem_cons.mpr (Or.inr h)

theorem removeFirstWith_length {α : Type} (p : α → Bool) (l : List α)
    (h : ∃ a ∈ l, p a = true) :
    (removeFirstWith p l).length + 1 = l.length := by
  induction l with
  | nil => rcases h with ⟨a, ha, _⟩; cases ha
  | cons a as ih =>
      cases hpa : p a with
      | true => simp [removeFirstWith, hpa]
      | false =>
          rcases h with ⟨b, hb, hpb⟩
          rcases List.mem_cons.mp hb with rfl | hbs
          · rw [hpa] at hpb; cases hpb
          · have hrec := ih ⟨b, hbs, hpb⟩
            simp [removeFirstWith, hpa]
            omega

theorem removeFirstWith_subset {α : Type} (p : α → Bool) (l : List α) :
    ∀ x ∈ removeFirstWith p l, x ∈ l := by
  induction l with
  | nil => intro x hx; cases hx
  | cons a as ih =>
      intro x hx
      cases hpa : p a with
      | true =>
          simp only [removeFirstWith, hpa, if_true] at hx
          exact List.mem_cons_of_mem a hx
      | false =>
          simp [removeFirstWith, hpa] at hx
          rcases hx with rfl | hxs
          · exact List.mem_cons_self x as
          · exact List.mem_cons_of_mem a (ih x hxs)

theorem removeWeakestBy_length {α β : Type} [LinearOrder β] (f : α → β)
    (l : List α) (h : l ≠ []) :
    (removeWeakestBy f l).length + 1 = l.length := by
  cases l with
  | nil => exact absurd rfl h
  | cons a as =>
      apply removeFirstWith_length
      rcases foldMin_eq_or_mem (f a) (as.map f) with hm | hm
      · exact ⟨a, List.mem_cons_self a as, by simp [hm]⟩
      · rcases List.mem_map.mp hm with ⟨b, hb, hfb⟩
        exact ⟨b, List.mem_cons_of_mem a hb, by simp [hfb]⟩

theorem removeWeakestBy_subset {α β : Type} [LinearOrder β] (f : α → β)
    (l : List α) : ∀ x ∈ removeWeakestBy f l, x ∈ l := by
  cases l with
  | nil => intro x hx; cases hx
  | cons a as => exact removeFirstWith_subset _ _

theorem clampQ_mem (p : ℚ) : 0 ≤ clampQ p ∧ clampQ p ≤ 1 := by
  constructor
  · exact le_min (by norm_num) (le_max_left 0 p)
  · exact min_le_left 1 _

/-! ### Preservation of the Connections invariant -/

theorem getD_eq_or_mem {α : Type} (l : List α) (n : Nat) (d : α) :
    l.getD n d = d ∨ l.getD n d ∈ l := by
  induction l generalizing n with
  | nil => left; rfl
  | cons a as ih =>
      cases n with
      | zero => right; exact List.mem_cons_self a as
      | succ m =>
          rcases ih m with h | h
          · left; simpa using h
          · right; exact List.mem_cons_of_mem a (by simpa using h)

theorem segsOk_nil (maxSeg maxSyn : Nat) : SegsOk maxSeg maxSyn [] :=
  ⟨Nat.zero_le _, fun seg h => absurd h (List.not_mem_nil seg)⟩

theorem segsOk_getSegs {c : Connections} (h : c.Invariant) (cell : Nat) :
    SegsOk c.maxSegmentsPerCell c.maxSynapsesPerSegment (c.getSegs cell) := by
  rcases getD_eq_or_mem c.cells cell [] with he | hm
  · rw [Connections.getSegs, he]; exact segsOk_nil _ _
  · exact h _ hm

theorem invariant_init (numCells maxSeg maxSyn : Nat) :
    (Connections.init numCells maxSeg maxSyn).Invariant := by
  intro segs hsegs
  rw [List.eq_of_mem_replicate hsegs]
  exact segsOk_nil _ _

theorem invariant_setSegs {c : Connections} (h : c.Invariant) (cell : Nat)
    {segs : List SegmentData}
    (hsegs : SegsOk c.maxSegmentsPerCell c.maxSynapsesPerSegment segs) :
    (c.setSegs cell segs).Invariant := by
  intro s hs
  rcases List.mem_or_eq_of_mem_set hs with hmem | rfl
  · exact h s hmem
  · exact hsegs

theorem evictAppend_length {α β : Type} [LinearOrder β] (f : α → β)
    (l : List α) (x : α) (maxN : Nat) (hmax : 1 ≤ maxN)
    (hlen : l.length ≤ maxN) :
    ((if maxN ≤ l.length then removeWeakestBy f l else l) ++ [x]).length
      ≤ maxN := by
  rw [List.length_append]
  by_cases hc : maxN ≤ l.length
  · rw [if_pos hc]
    have hne : l ≠ [] := by
      intro he
      rw [he] at hc
      simp at hc
      omega
    have h2 := removeWeakestBy_length f l hne
    simp only [List.length_cons, List.length_nil]
    omega
  · rw [if_neg hc]
    simp only [List.length_cons, List.length_nil]
    omega

theorem evictAppend_mem {α β : Type} [LinearOrder β] (f : α → β)
    (l : List α) (x : α) (maxN : Nat) :
    ∀ y ∈ (if maxN ≤ l.length then removeWeakestBy f l else l) ++ [x],
      y ∈ l ∨ y = x := by
  intro y hy
  rcases List.mem_append.mp hy with hm | hm
  · left
    by_cases hc : maxN ≤ l.length
    · rw [if_pos hc] at hm; exact removeWeakestBy_subset f l y hm
    · rw [if_neg hc] at hm; exact hm
  · right; exact List.mem_singleton.mp hm

theorem segOk_empty (maxSyn iter : Nat) :
    SegOk maxSyn ⟨[], iter⟩ :=
  ⟨Nat.zero_le _, fun sy h => absurd h (List.not_mem_nil sy)⟩

theorem invariant_createSegment {c : Connections} (h : c.Invariant)
    (hmax : 1 ≤ c.maxSegmentsPerCell) (cell iter : Nat) :
    (c.createSegment cell iter).Invariant := by
  simp only [Connections.createSegment]
  apply invariant_setSegs h
  refine ⟨?_, ?_⟩
  · exact evictAppend_length _ _ _ _ hmax (segsOk_getSegs h cell).1
  · intro seg hseg
    rcases evictAppend_mem (fun s => s.lastUsed) (c.getSegs cell)
        ⟨[], iter⟩ c.maxSegmentsPerCell seg hseg with hm | rfl
    · exact (segsOk_getSegs h cell).2 seg hm
    · exact segOk_empty _ _

theorem segOk_createSynapseOnSeg {maxSyn : Nat} {seg : SegmentData}
    (hmax : 1 ≤ maxSyn) (h : SegOk maxSyn seg) (presyn : Nat) {perm : ℚ}
    (hp0 : 0 ≤ perm) (hp1 : perm ≤ 1) :
    SegOk maxSyn (createSynapseOnSeg seg presyn perm maxSyn) := by
  simp only [createSynapseOnSeg]
  split
  · exact h
  · refine ⟨?_, ?_⟩
    · exact evictAppend_length _ _ _ _ hmax h.1
    · intro sy hsy
      rcases evictAppend_mem (fun sy => sy.permanence) seg.synapses
          ⟨presyn, perm⟩ maxSyn sy hsy with hm | rfl
      · exact h.2 sy hm
      · exact ⟨hp0, hp1⟩

theorem invariant_createSynapse {c : Connections} (h : c.Invariant)
    (hmax : 1 ≤ c.maxSynapsesPerSegment) (cell segIdx presyn : Nat)
    {perm : ℚ} (hp0 : 0 ≤ perm) (hp1 : perm ≤ 1) :
    (c.createSynapse cell segIdx presyn perm).Invariant := by
  simp only [Connections.createSynapse]
  split
  · exact h
  · rename_i seg hget
    apply invariant_setSegs h
    refine ⟨?_, ?_⟩
    · rw [List.length_set]; exact (segsOk_getSegs h cell).1
    · intro s hs
      rcases List.mem_or_eq_of_mem_set hs with hm | rfl
      · exact (segsOk_getSegs h cell).2 s hm
      · exact segOk_createSynapseOnSeg hmax
          ((segsOk_getSegs h cell).2 seg (List.get?_mem hget)) presyn hp0 hp1

theorem invariant_destroySegment {c : Connections} (h : c.Invariant)
    (cell segIdx : Nat) : (c.destroySegment cell segIdx).Invariant := by
  simp only [Connections.destroySegment]
  apply invariant_setSegs h
  refine ⟨?_, ?_⟩
  · have h1 : ((c.getSegs cell).eraseIdx segIdx).length
        ≤ (c.getSegs cell).length := by
      rw [List.length_eraseIdx]; split <;> omega
    exact le_trans h1 (segsOk_getSegs h cell).1
  · intro s hs
    exact (segsOk_getSegs h cell).2 s (List.eraseIdx_subset _ _ hs)

theorem invariant_destroySynapse {c : Connections} (h : c.Invariant)
    (cell segIdx synIdx : Nat) :
    (c.destroySynapse cell segIdx synIdx).Invariant := by
  simp only [Connections.destroySynapse]
  split
  · exact h
  · rename_i seg hget
    apply invariant_setSegs h
    refine ⟨?_, ?_⟩
    · rw [List.length_set]; exact (segsOk_getSegs h cell).1
    · intro s hs
      rcases List.mem_or_eq_of_mem_set hs with hm | rfl
      · exact (segsOk_getSegs h cell).2 s hm
      · have hseg := (segsOk_getSegs h cell).2 seg (List.get?_mem hget)
        refine ⟨?_, ?_⟩
        · have h1 : (seg.synapses.eraseIdx synIdx).length
              ≤ seg.synapses.length := by
            rw [List.length_eraseIdx]; split <;> omega
          exact le_trans h1 hseg.1
        · intro sy hsy
          exact hseg.2 sy (List.eraseIdx_subset _ _ hsy)

theorem invariant_updatePermanence {c : Connections} (h : c.Invariant)
    (cell segIdx synIdx : Nat) (delta : ℚ) :
    (c.updateSynapsePermanence cell segIdx synIdx delta).Invariant := by
  simp only [Connections.updateSynapsePermanence]
  split
  · exact h
  · rename_i seg hget
    split
    · exact h
    · rename_i sy hsy
      apply invariant_setSegs h
      refine ⟨?_, ?_⟩
      · rw [List.length_set]; exact (segsOk_getSegs h cell).1
      · intro s hs
        rcases List.mem_or_eq_of_mem_set hs with hm | rfl
        · exact (segsOk_getSegs h cell).2 s hm
        · have hseg := (segsOk_getSegs h cell).2 seg (List.get?_mem hget)
          refine ⟨?_, ?_⟩
          · show (seg.synapses.set synIdx _).length ≤ _
            rw [List.length_set]; exact hseg.1
          · intro sy2 hsy2
            have hmem : sy2 ∈ seg.synapses.set synIdx
                ⟨sy.presyn, clampQ (sy.permanence + delta)⟩ := hsy2
            rcases List.mem_or_eq_of_mem_set hmem with hm | rfl
            · exact hseg.2 sy2 hm
            · exact clampQ_mem _

/-- Every operation, applied to a store whose capacity parameters are
positive and whose created synapses carry in-range permanences,
preserves the invariant. -/
theorem invariant_applyConnOp {c : Connections} (h : c.Invariant)
    (hSeg : 1 ≤ c.maxSegmentsPerCell) (hSyn : 1 ≤ c.maxSynapsesPerSegment)
    (op : ConnOp) (hop : op.permOk) : (applyConnOp c op).Invariant := by
  cases op with
  | createSegment cell iter => exact invariant_createSegment h hSeg cell iter
  | createSynapse cell segIdx presyn perm =>
      exact invariant_createSynapse h hSyn cell segIdx presyn hop.1 hop.2
  | destroySegment cell segIdx => exact invariant_destroySegment h cell segIdx
  | destroySynapse cell segIdx synIdx =>
      exact invariant_destroySynapse h cell segIdx synIdx
  | updatePermanence cell segIdx synIdx delta =>
      exact invariant_updatePermanence h cell segIdx synIdx delta

theorem applyConnOp_maxSeg (c : Connections) (op : ConnOp) :
    (applyConnOp c op).maxSegmentsPerCell = c.maxSegmentsPerCell := by
  cases op <;>
    simp only [applyConnOp, Connections.createSegment,
      Connections.createSynapse, Connections.destroySegment,
      Connections.destroySynapse, Connections.updateSynapsePermanence] <;>
    first
      | rfl
      | (split <;> first | rfl | (split <;> rfl))

theorem applyConnOp_maxSyn (c : Connections) (op : ConnOp) :
    (applyConnOp c op).maxSynapsesPerSegment = c.maxSynapsesPerSegment := by
  cases op <;>
    simp only [applyConnOp, Connections.createSegment,
      Connections.createSynapse, Connections.destroySegment,
      Connections.destroySynapse, Connections.updateSynapsePermanence] <;>
    first
      | rfl
      | (split <;> first | rfl | (split <;> rfl))

theorem invariant_foldl {ops : List ConnOp} : ∀ {c : Connections},
    c.Invariant → 1 ≤ c.maxSegmentsPerCell → 1 ≤ c.maxSynapsesPerSegment →
    (∀ op ∈ ops, op.permOk) → (ops.foldl applyConnOp c).Invariant := by
  induction ops with
  | nil => intro c h _ _ _; exact h
  | cons op rest ih =>
      intro c h hSeg hSyn hops
      rw [List.foldl_cons]
      exact ih (invariant_applyConnOp h hSeg hSyn op
          (hops op (List.mem_cons_self op rest)))
        ((applyConnOp_maxSeg c op).symm ▸ hSeg)
        ((applyConnOp_maxSyn c op).symm ▸ hSyn)
        (fun o ho => hops o (List.mem_cons_of_mem op ho))

theorem getSegs_setSegs_self {c : Connections} {cell : Nat}
    (hcell : cell < c.cells.length) (segs : List SegmentData) :
    (c.setSegs cell segs).getSegs cell = segs := by
  rw [Connections.setSegs, Connections.getSegs]
  show (c.cells.set cell segs).getD cell [] = segs
  rw [List.getD_eq_getElem?_getD, List.getElem?_set_self hcell]
  rfl

theorem getSegs_nonempty_cell {c : Connections} {cell segIdx : Nat}
    {seg : SegmentData}
    (hseg : (c.getSegs cell).get? segIdx = some seg) :
    cell < c.cells.length := by
  by_contra hge
  push_neg at hge
  have hnil : c.getSegs cell = [] := by
    rw [Connections.getSegs, List.getD_eq_getElem?_getD,
      List.getElem?_eq_none hge]
    rfl
  rw [hnil] at hseg
  cases hseg

/-- `updateSynapsePermanence` adds the delta and clamps the result to
`[0,1]`, leaving the synapse's presynaptic cell untouched. -/
theorem getSynapse_updateSynapsePermanence {c : Connections}
    {cell segIdx synIdx : Nat} {sy : SynapseData}
    (hget : c.getSynapse cell segIdx synIdx = some sy) (delta : ℚ) :
    (c.updateSynapsePermanence cell segIdx synIdx delta).getSynapse
        cell segIdx synIdx
      = some ⟨sy.presyn, min 1 (max 0 (sy.permanence + delta))⟩ := by
  rw [Connections.getSynapse] at hget
  cases hseg : (c.getSegs cell).get? segIdx with
  | none => rw [hseg] at hget; cases hget
  | some seg =>
      rw [hseg] at hget
      have hsy : seg.synapses.get? synIdx = some sy := hget
      have hcell : cell < c.cells.length := getSegs_nonempty_cell hseg
      have hsegIdx : segIdx < (c.getSegs cell).length :=
        (List.get?_eq_some.mp hseg).1
      have hsynIdx : synIdx < seg.synapses.length :=
        (List.get?_eq_some.mp hsy).1
      simp only [Connections.updateSynapsePermanence, hseg, hsy]
      simp [Connections.getSynapse, getSegs_setSegs_self hcell,
        List.getElem?_set_self hsegIdx,
        List.getElem?_set_self hsynIdx, clampQ]

theorem activateDendrites_segmentsValid (s : TMState) (learn : Bool)
    (ea ew : List Nat) :
    (s.activateDendrites learn ea ew).segmentsValid = true := by
  rw [TMState.activateDendrites]
  split
  · assumption
  · rfl

theorem getD_zipWith_and : ∀ (a b : List Bool) (i : Nat),
    (List.zipWith and a b).getD i false
      = (a.getD i false && b.getD i false) := by
  intro a
  induction a with
  | nil => intro b i; simp
  | cons x xs ih =>
      intro b i
      cases b with
      | nil => simp
      | cons y ys =>
          cases i with
          | zero => simp
          | succ j => simpa using ih ys j

theorem foldl_and_getD (rest : List SDRData) :
    ∀ (acc : List Bool) (i : Nat),
      (rest.foldl (fun acc s => List.zipWith and acc s.dense) acc).getD
          i false
        = (acc.getD i false
            && rest.all (fun s => s.dense.getD i false)) := by
  induction rest with
  | nil => intro acc i; simp
  | cons s ss ih =>
      intro acc i
      rw [List.foldl_cons]
      rw [ih (List.zipWith and acc s.dense) i]
      rw [getD_zipWith_and]
      simp [Bool.and_assoc]

/-! ### Claim theorems -/

/-- Claim C1: two TemporalMemory instances constructed with identical
parameters (including the seed), fed the identical sequence of
compute calls, have bit-identical learned state — `operator==` holds
and the Connections graphs are identical — and identical
active/winner/predictive cell output sets after every step.  The
model funnels every non-deterministic choice through the
instance-owned generator carried in the state, so runs are pure
functions of the parameters and inputs. -/
theorem tm_determinism (p q : TMParams) (ins1 ins2 : List TMInput)
    (hp : p = q) (hi : ins1 = ins2) :
    runTM (TMState.init p) ins1 = runTM (TMState.init q) ins2
    ∧ TMState.tmEquals (runTM (TMState.init p) ins1)
        (runTM (TMState.init q) ins2) = true
    ∧ (runTM (TMState.init p) ins1).connections
        = (runTM (TMState.init q) ins2).connections
    ∧ ∀ k : Nat,
        (runTM (TMState.init p) (ins1.take k)).getActiveCells
            = (runTM (TMState.init q) (ins2.take k)).getActiveCells
        ∧ (runTM (TMState.init p) (ins1.take k)).getWinnerCells
            = (runTM (TMState.init q) (ins2.take k)).getWinnerCells
        ∧ (runTM (TMState.init p) (ins1.take k)).getPredictiveCells
            = (runTM (TMState.init q) (ins2.take k)).getPredictiveCells
    := by
  subst hp
  subst hi
  refine ⟨rfl, ?_, rfl, fun k => ⟨rfl, rfl, rfl⟩⟩
  simp [TMState.tmEquals]

/-- Witness for C1 at concrete parameters and a concrete input. -/
theorem tm_determinism_witness :
    runTM (TMState.init tmParamsEx) [tmInputEx]
      = runTM (TMState.init tmParamsEx) [tmInputEx] :=
  (tm_determinism tmParamsEx tmParamsEx [tmInputEx] [tmInputEx]
    rfl rfl).1

/-- Claim C2: `compute(activeColumns, learn, extraActive,
extraWinners)` leaves the instance in exactly the state produced by
`activateDendrites(learn, extraActive, extraWinners)` followed by
`activateCells(activeColumns, learn)`, with the same active, winner
and predictive cell sets and the same segment sets. -/
theorem compute_is_dendrites_then_cells (s : TMState)
    (cols : List Nat) (learn : Bool) (ea ew : List Nat) :
    s.compute cols learn ea ew
        = (s.activateDendrites learn ea ew).activateCells cols learn
    ∧ (s.compute cols learn ea ew).getActiveCells
        = ((s.activateDendrites learn ea ew).activateCells cols
            learn).getActiveCells
    ∧ (s.compute cols learn ea ew).getWinnerCells
        = ((s.activateDendrites learn ea ew).activateCells cols
            learn).getWinnerCells
    ∧ (s.compute cols learn ea ew).getPredictiveCells
        = ((s.activateDendrites learn ea ew).activateCells cols
            learn).getPredictiveCells
    ∧ (s.compute cols learn ea ew).getActiveSegments
        = ((s.activateDendrites learn ea ew).activateCells cols
            learn).getActiveSegments
    ∧ (s.compute cols learn ea ew).getMatchingSegments
        = ((s.activateDendrites learn ea ew).activateCells cols
            learn).getMatchingSegments :=
  ⟨rfl, rfl, rfl, rfl, rfl, rfl⟩

/-- Claim C3: within a timestep `activateDendrites` is idempotent — a
second call before any `activateCells` is a no-op returning the state
(hence segment sets, per-segment counts, random generator and
Connections graph) exactly as after the first call, and a call on any
state with valid cached activity returns it unchanged — while
`activateCells` invalidates the cached activity, so a later
`activateDendrites` recomputes for the new timestep. -/
theorem activateDendrites_idempotent (s t : TMState) (learn : Bool)
    (ea ew cols : List Nat) (ht : t.segmentsValid = true) :
    ((s.activateDendrites learn ea ew).activateDendrites learn ea ew
        = s.activateDendrites learn ea ew)
    ∧ t.activateDendrites learn ea ew = t
    ∧ (s.activateCells cols learn).segmentsValid = false := by
  refine ⟨?_, ?_, rfl⟩
  · have hv := activateDendrites_segmentsValid s learn ea ew
    conv_lhs => rw [TMState.activateDendrites]
    exact if_pos hv
  · rw [TMState.activateDendrites]
    exact if_pos ht

/-- Witness for C3 at a concrete state with valid cached activity. -/
theorem activateDendrites_idempotent_witness :
    ((tmStateValidEx.activateDendrites true [] []).activateDendrites
        true [] [] = tmStateValidEx.activateDendrites true [] [])
    ∧ tmStateValidEx.activateDendrites true [] [] = tmStateValidEx
    ∧ (tmStateValidEx.activateCells [0] true).segmentsValid = false :=
  activateDendrites_idempotent tmStateValidEx tmStateValidEx true
    [] [] [0] rfl

/-- Claim C4: `reset()` empties the active-cell, winner-cell,
predictive-cell, active-segment and matching-segment working sets and
leaves the learned Connections state unchanged, so Connections
equality holds before and after the reset. -/
theorem reset_clears_working_sets_preserves_connections
    (s : TMState) :
    (s.reset).getActiveCells = []
    ∧ (s.reset).getWinnerCells = []
    ∧ (s.reset).getPredictiveCells = []
    ∧ (s.reset).getActiveSegments = []
    ∧ (s.reset).getMatchingSegments = []
    ∧ (s.reset).connections = s.connections :=
  ⟨rfl, rfl, rfl, rfl, rfl, rfl⟩

/-- Claim C5: in every Connections state reachable by
create/destroy/update operations from a fresh store with positive
capacity parameters (zero capacities are rejected at construction)
and in-range initial permanences, each cell owns at most the
configured maximum number of segments, each segment at most the
configured maximum number of synapses, and every synapse's permanence
lies in `[0,1]`; and `updateSynapsePermanence(synapse, delta)` adds
delta and clamps the result to `[0,1]`. -/
theorem connections_capacity_and_permanence_bounds
    (numCells maxSeg maxSyn cell segIdx synIdx : Nat) (delta : ℚ)
    (c : Connections) (sy : SynapseData) (ops : List ConnOp)
    (hSeg : 1 ≤ maxSeg) (hSyn : 1 ≤ maxSyn)
    (hops : ∀ op ∈ ops, op.permOk)
    (hget : c.getSynapse cell segIdx synIdx = some sy) :
    (ops.foldl applyConnOp
        (Connections.init numCells maxSeg maxSyn)).Invariant
    ∧ (c.updateSynapsePermanence cell segIdx synIdx delta).getSynapse
          cell segIdx synIdx
        = some ⟨sy.presyn, min 1 (max 0 (sy.permanence + delta))⟩ :=
  ⟨invariant_foldl (invariant_init numCells maxSeg maxSyn) hSeg hSyn
      hops,
    getSynapse_updateSynapsePermanence hget delta⟩

/-- Witness for C5 on a concrete operation sequence exercising every
operation, and a concrete clamped update. -/
theorem connections_capacity_and_permanence_bounds_witness :
    (connOpsEx.foldl applyConnOp (Connections.init 2 1 1)).Invariant
    ∧ (connEx.updateSynapsePermanence 0 0 0 (3/4)).getSynapse 0 0 0
        = some ⟨1, min 1 (max 0 ((1 : ℚ)/2 + 3/4))⟩ :=
  connections_capacity_and_permanence_bounds 2 1 1 0 0 0 (3/4)
    connEx ⟨1, 1/2⟩ connOpsEx (by decide) (by decide) (by decide) rfl

/-- Claim C6: on every read-only SDR view each direct mutating entry
point (`setDenseInplace`, `setSparseInplace`,
`setCoordinatesInplace`, `setSDR`) and `load` fails with the read-only
error — no mutated or freshly loaded object is ever produced, so the
view's value is unchanged and load never silently yields an empty
object — while `Reshape::save` succeeds, serializing the view's
current materialized value. -/
theorem readonly_views_reject_mutation (v : ReadOnlySDR)
    (other : SDRData) (stream dims : List Nat) (src : SDRData) :
    v.setDenseInplace = .error readOnlyErrorMessage
    ∧ v.setSparseInplace = .error readOnlyErrorMessage
    ∧ v.setCoordinatesInplace = .error readOnlyErrorMessage
    ∧ v.setSDR other = .error readOnlyErrorMessage
    ∧ v.load stream = .error readOnlyErrorMessage
    ∧ (∀ v2 : ReadOnlySDR, v.load stream ≠ .ok v2)
    ∧ Reshape.load stream = .error readOnlyErrorMessage
    ∧ Reshape.save dims src
        = .ok (serializeSDR (Reshape.value dims src)) := by
  refine ⟨rfl, rfl, rfl, rfl, rfl, ?_, rfl, rfl⟩
  intro v2 h
  cases h

/-- Witness for C6 at a concrete view, mutation argument and
stream. -/
theorem readonly_views_reject_mutation_witness :
    ReadOnlySDR.setDenseInplace ⟨sdrAEx⟩
        = .error readOnlyErrorMessage
    ∧ ReadOnlySDR.setSparseInplace ⟨sdrAEx⟩
        = .error readOnlyErrorMessage
    ∧ ReadOnlySDR.setCoordinatesInplace ⟨sdrAEx⟩
        = .error readOnlyErrorMessage
    ∧ ReadOnlySDR.setSDR ⟨sdrAEx⟩ sdrBEx
        = .error readOnlyErrorMessage
    ∧ ReadOnlySDR.load ⟨sdrAEx⟩ [1, 2]
        = .error readOnlyErrorMessage
    ∧ (∀ v2 : ReadOnlySDR, ReadOnlySDR.load ⟨sdrAEx⟩ [1, 2] ≠ .ok v2)
    ∧ Reshape.load [1, 2] = .error readOnlyErrorMessage
    ∧ Reshape.save [10] sdrAEx
        = .ok (serializeSDR (Reshape.value [10] sdrAEx)) :=
  readonly_views_reject_mutation ⟨sdrAEx⟩ sdrBEx [1, 2] [10] sdrAEx

/-- Claim C7: a Reshape view whose declared dimensions preserve the
element count always shows the source's current bit pattern
reinterpreted under the view's dimensions: after any coordinate
mutation of the source, the view's dense and sparse values equal the
source's, the active-bit counts agree, and the view's coordinates are
the source's flat indices re-expressed under the view's
dimensions. -/
theorem reshape_view_tracks_source (src : SDRData)
    (dims : List Nat) (coords : List (List Nat))
    (h : listProd dims = listProd src.dimensions) :
    (Reshape.value dims (src.setCoordinates coords)).dense
        = (src.setCoordinates coords).dense
    ∧ (Reshape.value dims (src.setCoordinates coords)).getSparse
        = (src.setCoordinates coords).getSparse
    ∧ (Reshape.value dims (src.setCoordinates coords)).getSum
        = (src.setCoordinates coords).getSum
    ∧ (Reshape.value dims (src.setCoordinates coords)).getCoordinates
        = coordinatesOf dims ((src.setCoordinates coords).getSparse) :=
  ⟨rfl, rfl, rfl, rfl⟩

/-- Witness for C7: the spec's 4×4 → 8×2 example — source coordinates
{1,1,2},{0,1,2} (flat indices {4,5,10}) appear on the view as
coordinates {2,2,5},{0,1,0}, with the same active-bit count 3. -/
theorem reshape_view_tracks_source_witness :
    ((Reshape.value [8, 2]
          (sdrSourceEx.setCoordinates [[1, 1, 2], [0, 1, 2]])).dense
        = (sdrSourceEx.setCoordinates [[1, 1, 2], [0, 1, 2]]).dense
      ∧ (Reshape.value [8, 2]
          (sdrSourceEx.setCoordinates [[1, 1, 2], [0, 1, 2]])).getSparse
        = (sdrSourceEx.setCoordinates [[1, 1, 2], [0, 1, 2]]).getSparse
      ∧ (Reshape.value [8, 2]
          (sdrSourceEx.setCoordinates [[1, 1, 2], [0, 1, 2]])).getSum
        = (sdrSourceEx.setCoordinates [[1, 1, 2], [0, 1, 2]]).getSum
      ∧ (Reshape.value [8, 2]
          (sdrSourceEx.setCoordinates
            [[1, 1, 2], [0, 1, 2]])).getCoordinates
        = coordinatesOf [8, 2]
            ((sdrSourceEx.setCoordinates
              [[1, 1, 2], [0, 1, 2]]).getSparse))
    ∧ (Reshape.value [8, 2]
        (sdrSourceEx.setCoordinates
          [[1, 1, 2], [0, 1, 2]])).getCoordinates
        = [[2, 2, 5], [0, 1, 0]]
    ∧ (Reshape.value [8, 2]
        (sdrSourceEx.setCoordinates [[1, 1, 2], [0, 1, 2]])).getSparse
        = [4, 5, 10]
    ∧ (Reshape.value [8, 2]
        (sdrSourceEx.setCoordinates [[1, 1, 2], [0, 1, 2]])).getSum
        = 3 :=
  ⟨reshape_view_tracks_source sdrSourceEx [8, 2]
      [[1, 1, 2], [0, 1, 2]] (by decide),
    by decide, by decide, by decide⟩

/-- Claim C8: an Intersection view over sources of identical
dimensions reads as the bitwise AND of the sources' current dense
forms — bit `i` of the view is set exactly when bit `i` is set in
every source. -/
theorem intersection_is_bitwise_and (a : SDRData)
    (rest : List SDRData) (i : Nat)
    (hdims : ∀ s ∈ rest, s.dimensions = a.dimensions)
    (hlen : ∀ s ∈ rest, s.dense.length = a.dense.length) :
    (Intersection.getDense (a :: rest)).getD i false
      = (a.dense.getD i false
          && rest.all (fun s => s.dense.getD i false)) := by
  rw [Intersection.getDense]
  exact foldl_and_getD rest a.dense i

/-- Witness for C8: the spec's example — sources {2,3,4,5} and
{0,1,2,3} intersect to {2,3}; zeroing one source drops the view's
active count to 0. -/
theorem intersection_is_bitwise_and_witness :
    ((Intersection.getDense [sdrAEx, sdrBEx]).getD 2 false
        = (sdrAEx.dense.getD 2 false
            && [sdrBEx].all (fun s => s.dense.getD 2 false)))
    ∧ Intersection.getSparse [sdrAEx, sdrBEx] = [2, 3]
    ∧ Intersection.getSum [sdrAEx, sdrBEx.zero] = 0 :=
  ⟨intersection_is_bitwise_and sdrAEx [sdrBEx] 2 (by decide)
      (by decide),
    by decide, by decide⟩

/-- Claim C9: the empty dimension list is classified as unspecified
(and not don't-care) and `[0]` as don't-care (and not unspecified);
both have total element count 0. -/
theorem dimensions_unspecified_and_dontcare :
    Dimensions.isUnspecified ([] : Dimensions) = true
    ∧ Dimensions.isDontcare ([] : Dimensions) = false
    ∧ Dimensions.getCount ([] : Dimensions) = 0
    ∧ Dimensions.isDontcare ([0] : Dimensions) = true
    ∧ Dimensions.isUnspecified ([0] : Dimensions) = false
    ∧ Dimensions.getCount ([0] : Dimensions) = 0 := by
  decide

/-- Claim C10: streaming any Dimensions value out and reading it back
yields an equal value — specified, invalid, don't-care and
unspecified alike — so every classification predicate is preserved by
the round trip. -/
theorem dimensions_stream_roundtrip (d : Dimensions)
    (rest : List Nat) :
    Dimensions.loadStream (Dimensions.save d ++ rest) = (d, rest)
    ∧ Dimensions.isSpecified
        (Dimensions.loadStream (Dimensions.save d ++ rest)).1
      = Dimensions.isSpecified d
    ∧ Dimensions.isInvalid
        (Dimensions.loadStream (Dimensions.save d ++ rest)).1
      = Dimensions.isInvalid d
    ∧ Dimensions.isDontcare
        (Dimensions.loadStream (Dimensions.save d ++ rest)).1
      = Dimensions.isDontcare d
    ∧ Dimensions.isUnspecified
        (Dimensions.loadStream (Dimensions.save d ++ rest)).1
      = Dimensions.isUnspecified d := by
  have h : Dimensions.loadStream (Dimensions.save d ++ rest)
      = (d, rest) := by
    show Dimensions.loadStream (d.length :: (d ++ rest)) = (d, rest)
    rw [Dimensions.loadStream]
    rw [List.take_left, List.drop_left]
  exact ⟨h, by rw [h], by rw [h], by rw [h], by rw [h]⟩

end NupicSpec
